import Mathlib

/-!
Verification of the detection-auction-bundling pipeline of the sniper-bot
repository: a shallow embedding of the selector classifier, sender recovery,
bid ledger, auction resolver, bundle builder and signer/submitter, together
with theorems settling the specification claims about them.

Conventions of the embedding: Ethereum addresses are natural numbers (the
20-byte value), call data is a list of byte values, go-ethereum big.Int gas
quantities are integers, and every network interaction (nonce fetch, chain-id
fetch, transaction submission) is an explicit oracle parameter so that the
pipeline functions stay pure and executable.
-/

namespace SniperBot

/-- A 20-byte Ethereum address, modelled by its numeric value. -/
abbrev Address := Nat

/-- Transaction envelope formats distinguished by go-ethereum tx.Type(). -/
inductive TxType where
  | legacy
  | accessList
  | dynamicFee
deriving DecidableEq

/-- The slice of a go-ethereum types.Transaction that the pipeline reads:
its envelope type, destination toAddr (tx.To(), nil for contract creation), call
data (tx.Data()) and the sender address derivable from its signature (the
value that a signer supporting this envelope type recovers). -/
structure Tx where
  type : TxType
  toAddr : Option Address
  data : List Nat
  sender : Address
deriving DecidableEq

/-- The configured contract addresses the classifier compares against
(config.UniswapV2Factory and config.UniswapV2Router after HexToAddress). -/
structure Config where
  uniswapV2Factory : Address
  uniswapV2Router : Address
deriving DecidableEq

/-- First four bytes of crypto.Keccak256 of the string
createPair(address,address); the hash itself is external, its well-known
value gives the Uniswap V2 factory selector 0xc9c65396. -/
def createPairSelector : List Nat := [0xc9, 0xc6, 0x53, 0x96]

/-- First four bytes of crypto.Keccak256 of the string
addLiquidityETH(address,uint256,uint256,uint256,address,uint256); the
well-known value is 0xf305d719 (also quoted in the specification). -/
def addLiquidityETHSelector : List Nat := [0xf3, 0x05, 0xd7, 0x19]

/-- From common.BytesToAddress: a byte slice folded big-endian into the
numeric address value (the extractors below always pass exactly 20 bytes). -/
def bytesToAddress (bs : List Nat) : Address :=
  bs.foldl (fun acc b => acc * 256 + b) 0

/-- From services/rpc/rpc/service.go isAddLiquidityTransaction: data at least
4 bytes, destination equal to the configured router, selector equal to
addLiquidityETH. -/
def isAddLiquidityTransaction (cfg : Config) (tx : Tx) : Bool :=
  if tx.data.length < 4 then false
  else if tx.toAddr ≠ some cfg.uniswapV2Router then false
  else tx.data.take 4 = addLiquidityETHSelector

/-- From internal/rpc/service.go isCreatePairTransaction: data at least 4
bytes, destination equal to the configured factory, selector equal to
createPair. -/
def isCreatePairTransaction (cfg : Config) (tx : Tx) : Bool :=
  if tx.data.length < 4 then false
  else if tx.toAddr ≠ some cfg.uniswapV2Factory then false
  else tx.data.take 4 = createPairSelector

/-- From services/rpc/rpc/service.go extractTokenFromAddLiquidity: require at
least 36 bytes (4-byte selector plus one 32-byte word), then read the address
from bytes 12..31 of the word section (bytes 16..35 of the call data). -/
def extractTokenFromAddLiquidity (tx : Tx) : Except String Address :=
  if tx.data.length < 36 then Except.error "insufficient data length"
  else
    Except.ok (bytesToAddress (((tx.data.drop 4).drop 12).take 20))

/-- From services/rpc/rpc/service.go extractTokensFromCreatePair: require at
least 68 bytes (4-byte selector plus two 32-byte words), tokenA from bytes
12..31 and tokenB from bytes 44..63 of the word section. -/
def extractTokensFromCreatePair (tx : Tx) : Except String (Address × Address) :=
  if tx.data.length < 68 then Except.error "insufficient data length"
  else
    Except.ok
      (bytesToAddress (((tx.data.drop 4).drop 12).take 20),
       bytesToAddress (((tx.data.drop 4).drop 44).take 20))

/-- From internal/bundle/manager.go GetBundleGasPrice: subtract the bundle
position from the base gas price and clamp below at 1 gwei. -/
def GetBundleGasPrice (baseGasPrice : Int) (position : Nat) : Int :=
  let result := baseGasPrice - position
  let minGasPrice : Int := 1000000000
  if result < minGasPrice then minGasPrice else result

/-- The fixed tip from the api service createBundleTransactions
(maxPriorityFeePerGas, 2 gwei in wei units as written in the source). -/
def maxPriorityFeePerGas : Int := 2000000

/-- From the api service createBundleTransactions: the initial max fee per
gas is base fee plus priority fee plus a 1 gwei buffer, capped at 20 gwei. -/
def initialMaxFeePerGas (baseFee : Int) : Int :=
  let buffer : Int := 1000000
  let initial := baseFee + maxPriorityFeePerGas + buffer
  let maxGasPrice : Int := 20 * 1000000000
  if initial > maxGasPrice then maxGasPrice else initial

/-- From the api service createBundleTransactions loop body: the bidder at
0-based loop index i gets max fee per gas initialMaxFeePerGas - i, clamped
below at minMaxFee = baseFee + maxPriorityFeePerGas. -/
def apiMaxFeePerGas (initial minMaxFee : Int) (i : Nat) : Int :=
  let maxFeePerGas := initial - i
  if maxFeePerGas < minMaxFee then minMaxFee else maxFeePerGas

/-- A sniper bid in the form the bundle pipeline consumes (bundle.SnipeBid:
user id, token, swap amount, bribe amount, the bidder's wallet address; the
private-key string is omitted, signing is modelled as always succeeding). -/
structure SnipeBid where
  userID : String
  tokenAddress : Address
  swapAmount : Int
  bribeAmount : Int
  wallet : Address
deriving DecidableEq

/-- Contract of Go sort.Slice as the auction resolver uses it
(sort.Slice(bundleBids, bids[i].BribeAmount.Cmp(bids[j].BribeAmount) > 0)):
the output is a permutation of the input arranged so that no later element
has a strictly larger bribe than an earlier one. Go documents this sort as
not guaranteed to be stable, so the output is any such permutation. -/
def IsSortSliceResult (input output : List SnipeBid) : Prop :=
  List.Perm input output ∧
    List.Pairwise (fun a b => b.bribeAmount ≤ a.bribeAmount) output

/-- A transaction produced by the bundle builder for one bid (the fields of
the types.DynamicFeeTx the api service constructs that the claims mention). -/
structure BundleTx where
  wallet : Address
  nonce : Nat
  gasTipCap : Int
  gasFeeCap : Int
deriving DecidableEq

/-- Loop of the api service createBundleTransactions over the sorted bids,
carrying the 0-based loop index: compute the max fee for this position, fetch
the bidder's pending nonce through the nonceOf oracle, and on a fetch error
abort the whole build with an error (return nil, fmt.Errorf in the source);
otherwise construct and keep the signed transaction and continue. The other
fallible steps of the loop body (CreateSnipeTransaction, key decoding,
SignTx) abort in exactly the same way and are modelled as succeeding. -/
def createBundleLoop (nonceOf : Address → Except String Nat)
    (initial minMaxFee : Int) : Nat → List SnipeBid →
    Except String (List BundleTx)
  | _, [] => Except.ok []
  | i, bid :: rest =>
    let maxFeePerGas := apiMaxFeePerGas initial minMaxFee i
    match nonceOf bid.wallet with
    | Except.error e => Except.error ("failed to get nonce for sniper: " ++ e)
    | Except.ok nonce =>
      match createBundleLoop nonceOf initial minMaxFee (i + 1) rest with
      | Except.error e => Except.error e
      | Except.ok txs =>
        Except.ok (⟨bid.wallet, nonce, maxPriorityFeePerGas, maxFeePerGas⟩ :: txs)

/-- From the api service createBundleTransactions: build one EIP-1559
transaction per bid, in bid order, starting at loop index 0. -/
def createBundleTransactions (nonceOf : Address → Except String Nat)
    (initial minMaxFee : Int) (bids : List SnipeBid) :
    Except String (List BundleTx) :=
  createBundleLoop nonceOf initial minMaxFee 0 bids

/-- One observable submission step of the api service submitBundle: the
liquidity-add raw transaction with its submitTx outcome, a sniper transaction
with its submitTx outcome, or a sniper transaction whose MarshalBinary
failed (it is logged and skipped, no submitTx call happens for it). -/
inductive SubmitAttempt where
  | lpAdd : Bool → SubmitAttempt
  | snipe : BundleTx → Bool → SubmitAttempt
  | marshalFail : BundleTx → SubmitAttempt
deriving DecidableEq

/-- Loop of the api service submitBundle over the sniper transactions: a
marshalling failure is logged and the loop continues with the next
transaction; a submitTx failure is logged and the loop also continues. -/
def submitBundleLoop (marshalOk : BundleTx → Bool)
    (submitOk : Option BundleTx → Bool) : List BundleTx → List SubmitAttempt
  | [] => []
  | tx :: rest =>
    if marshalOk tx then
      SubmitAttempt.snipe tx (submitOk (some tx)) ::
        submitBundleLoop marshalOk submitOk rest
    else
      SubmitAttempt.marshalFail tx :: submitBundleLoop marshalOk submitOk rest

/-- From the api service submitBundle: first submit the liquidity-add raw
transaction (its failure is only logged), then iterate over the sniper
transactions. The submitOk oracle gives each submitTx outcome (none stands
for the liquidity-add submission). -/
def submitBundle (marshalOk : BundleTx → Bool)
    (submitOk : Option BundleTx → Bool) (transactions : List BundleTx) :
    List SubmitAttempt :=
  SubmitAttempt.lpAdd (submitOk none) ::
    submitBundleLoop marshalOk submitOk transactions

/-- The go-ethereum signature schemes this code base constructs
(types.NewEIP155Signer and the signer types.LatestSigner would return for a
post-London chain configuration). -/
inductive Signer where
  | eip155 : Int → Signer
  | london : Int → Signer
deriving DecidableEq

/-- Model of go-ethereum types.Sender restricted to the signers above: an
EIP-155 signer recovers only legacy transactions and reports
ErrTxTypeNotSupported for typed envelopes; a London signer recovers legacy,
access-list and dynamic-fee transactions, each under its own scheme. -/
def gethSender (signer : Signer) (tx : Tx) : Except String Address :=
  match signer with
  | Signer.eip155 _ =>
    if tx.type = TxType.legacy then Except.ok tx.sender
    else Except.error "transaction type not supported"
  | Signer.london _ => Except.ok tx.sender

/-- Outcome of the services/rpc/rpc/service.go extractSenderFromTransaction
call: a sender recovered under a scheme, an error from the chain-id fetch or
from types.Sender, or a runtime panic. -/
inductive SenderOutcome where
  | ok : Signer → Address → SenderOutcome
  | errChainId : SenderOutcome
  | errRecovery : SenderOutcome
  | panicNilConfig : SenderOutcome
deriving DecidableEq

/-- From services/rpc/rpc/service.go extractSenderFromTransaction: fetch the
chain id (error propagated), then branch on tx.Type(). A legacy transaction
is recovered with types.NewEIP155Signer(chainID). Every other type takes the
branch signer = types.LatestSigner(nil); go-ethereum LatestSigner immediately
reads config.ChainID from its *params.ChainConfig argument, so the nil
argument makes this branch panic with a nil-pointer dereference before any
recovery happens. -/
def extractSenderFromTransaction (chainID : Except String Int) (tx : Tx) :
    SenderOutcome :=
  match chainID with
  | Except.error _ => SenderOutcome.errChainId
  | Except.ok cid =>
    if tx.type = TxType.legacy then
      match gethSender (Signer.eip155 cid) tx with
      | Except.ok sender => SenderOutcome.ok (Signer.eip155 cid) sender
      | Except.error _ => SenderOutcome.errRecovery
    else
      SenderOutcome.panicNilConfig

/-- From pkg/dex/sniper_contract.go GetCreatorFromLPAddTx: the creator is
recovered with types.Sender(types.NewEIP155Signer(s.chainID), tx) for every
transaction, whatever its envelope type. -/
def GetCreatorFromLPAddTx (chainID : Int) (tx : Tx) : Except String Address :=
  gethSender (Signer.eip155 chainID) tx

/-- What one execution of a proxy handler on an eth_sendRawTransaction
request did: whether the bot service notification was attempted, whether the
original call was forwarded to the sequencer, and whether the handler
panicked before reaching the forward. -/
structure HandlerTrace where
  notifyAttempted : Bool
  forwarded : Bool
  panicked : Bool
deriving DecidableEq

/-- From services/rpc/rpc/service.go handleRPC, the eth_sendRawTransaction
branch after the transaction decoded: if the transaction classifies as a
liquidity add, extract the token (an error is logged and the inner steps are
skipped), then the sender (an error is logged and the notification is
skipped; a panic aborts the handler), then notify the bot service (an error
is only logged). In every non-panicking path the handler falls through to
forwardToBase(w, body, true). -/
def backendHandleSendRawTx (cfg : Config) (chainID : Except String Int)
    (tx : Tx) : HandlerTrace :=
  if isAddLiquidityTransaction cfg tx then
    match extractTokenFromAddLiquidity tx with
    | Except.error _ => ⟨false, true, false⟩
    | Except.ok _ =>
      match extractSenderFromTransaction chainID tx with
      | SenderOutcome.panicNilConfig => ⟨false, false, true⟩
      | SenderOutcome.errChainId => ⟨false, true, false⟩
      | SenderOutcome.errRecovery => ⟨false, true, false⟩
      | SenderOutcome.ok _ _ => ⟨true, true, false⟩
  else ⟨false, true, false⟩

/-- From internal/rpc/service.go handleRPC, the eth_sendRawTransaction branch
after the transaction decoded: the createPair and addLiquidityETH detections
run (their results are only logged), and then the function returns at the
bare return statement; the forwardToBase call below that return is
unreachable, so no execution of this handler forwards the call or notifies
anyone. -/
def internalHandleSendRawTx (cfg : Config) (tx : Tx) : HandlerTrace :=
  let _createPairDetected := isCreatePairTransaction cfg tx
  let _addLiquidityDetected := isAddLiquidityTransaction cfg tx
  ⟨false, false, false⟩

/-- A row of the snipes table (services/bot/db/db.go Snipe). -/
structure Snipe where
  id : Nat
  userID : String
  tokenAddress : String
  amount : String
  bribeAmount : String
  wallet : String
  status : String
deriving DecidableEq

/-- From services/bot/db/db.go GetSnipesByToken: SELECT the rows whose
token_address matches and whose status is pending. The trailing ORDER BY
CAST(bribe_amount AS DECIMAL(20,8)) DESC only permutes the selected rows
(descending-bribe ordering is modelled by IsSortSliceResult at the resolver);
which rows are returned, the property the drain claims are about, is exactly
this selection. -/
def GetSnipesByToken (table : List Snipe) (tokenAddress : String) :
    List Snipe :=
  table.filter (fun s => s.tokenAddress == tokenAddress && s.status == "pending")

/-- From services/bot/db/db.go UpdateSnipeStatus: set the status of the rows
with the given id. -/
def UpdateSnipeStatus (table : List Snipe) (id : Nat) (status : String) :
    List Snipe :=
  table.map (fun s => if s.id = id then { s with status := status } else s)

/-- The status-update loop of the api service processLPAddAndCreateBundle,
run after the bundle was submitted: each drained snipe is marked submitted
through UpdateSnipeStatus. -/
def markSnipesSubmitted (table : List Snipe) (snipes : List Snipe) :
    List Snipe :=
  snipes.foldl (fun tbl s => UpdateSnipeStatus tbl s.id "submitted") table

/-- A bid as the in-memory ledger of internal/rpc/service.go stores it
(rpc.SnipeBid: user id, token address, bribe amount, wallet). -/
structure RpcSnipeBid where
  userID : String
  tokenAddress : Address
  bribeAmount : Int
  wallet : Address
deriving DecidableEq

/-- The snipeBids field of the rpc service: a map from token-address hex
string to the bids registered for that token, modelled as a total function
whose default value is the empty list (a missing Go map key reads as a nil
slice). -/
def BidLedger := String → List RpcSnipeBid

/-- From internal/rpc/service.go AddSnipeBid: under the service mutex,
append the bid to the slice stored under bid.TokenAddress.Hex(). The hex
rendering of common.Address.Hex is abstracted as the hexOf parameter. -/
def AddSnipeBid (hexOf : Address → String) (ledger : BidLedger)
    (bid : RpcSnipeBid) : BidLedger :=
  fun key =>
    if key = hexOf bid.tokenAddress then ledger key ++ [bid] else ledger key

/-! Concrete sample inputs used by witnesses and counterexamples. -/

/-- A sample configuration: factory at 0xFAC, router at 0x707. -/
def demoCfg : Config := ⟨0xFAC, 0x707⟩

/-- Call data of an addLiquidityETH call carrying a single 32-byte word whose
low bytes encode token address 0xAA: 36 bytes in total. -/
def addLiquidityData36 : List Nat :=
  addLiquidityETHSelector ++ (List.replicate 31 0 ++ [0xAA])

/-- Call data of a createPair call carrying a single 32-byte word: enough for
the classifier (4 bytes) but shorter than the two words extraction needs. -/
def createPairData36 : List Nat :=
  createPairSelector ++ (List.replicate 31 0 ++ [0xA1])

/-- A legacy liquidity-add transaction addressed to the configured router. -/
def txLegacyMatched : Tx := ⟨TxType.legacy, some 0x707, addLiquidityData36, 0xCAFE⟩

/-- A dynamic-fee (EIP-1559) liquidity-add transaction addressed to the
configured router. -/
def txDynamicMatched : Tx := ⟨TxType.dynamicFee, some 0x707, addLiquidityData36, 0xCAFE⟩

/-- A transaction with only 3 bytes of call data. -/
def txShortData : Tx := ⟨TxType.legacy, some 0x707, [0xf3, 0x05, 0xd7], 0⟩

/-- A transaction with the addLiquidityETH selector but a destination that is
not the configured router. -/
def txWrongDest : Tx := ⟨TxType.legacy, some 0x999, addLiquidityData36, 0⟩

/-- A contract-creation transaction (nil destination) with the createPair
selector. -/
def txNoDest : Tx := ⟨TxType.legacy, none, createPairData36, 0⟩

/-- Two bids with equal bribe amounts from different users, in arrival order
tieBidA then tieBidB. -/
def tieBidA : SnipeBid := ⟨"alice", 5, 1, 7, 0xA11⟩

/-- The second of the two equal-bribe bids. -/
def tieBidB : SnipeBid := ⟨"bob", 5, 1, 7, 0xB0B⟩

/-- Three bids for the bundle-builder scenarios, with distinct wallets. -/
def cbBidA : SnipeBid := ⟨"u1", 5, 3, 9, 100⟩

/-- Second bundle-builder bid. -/
def cbBidB : SnipeBid := ⟨"u2", 5, 2, 8, 200⟩

/-- Third bundle-builder bid. -/
def cbBidC : SnipeBid := ⟨"u3", 5, 1, 7, 300⟩

/-- A nonce oracle for which every fetch succeeds. -/
def nonceAllOk : Address → Except String Nat := fun _ => Except.ok 5

/-- A nonce oracle failing exactly for cbBidB's wallet. -/
def nonceFailB : Address → Except String Nat :=
  fun a => if a = 200 then Except.error "connection refused" else Except.ok 1

/-- A pending snipe row for token T. -/
def pendSnipe : Snipe := ⟨1, "u1", "T", "1.0", "0.5", "w1", "pending"⟩

/-- An injective stand-in for common.Address.Hex (each address rendered as a
distinct string; the real hex rendering is injective as well). -/
def hexRepl : Address → String := fun a => String.mk (List.replicate a 'h')

/-- A ledger bid for the AddSnipeBid witness. -/
def sampleLedgerBid : RpcSnipeBid := ⟨"dave", 3, 7, 0xD⟩

/-- The empty in-memory ledger (a fresh Go map: every key reads nil). -/
def emptyLedger : BidLedger := fun _ => []

/-! Helper lemmas shared by the claim theorems. -/

/-- The hex stand-in is injective (as the real address rendering is). -/
theorem hexRepl_injective : Function.Injective hexRepl := by
  intro a b h
  have hlen := congrArg (fun s => s.data.length) h
  simpa [hexRepl] using hlen

/-- The submitBundle loop emits exactly one attempt per transaction, in
order, independently of the submission outcomes. -/
theorem submitBundleLoop_eq_map (marshalOk : BundleTx → Bool)
    (submitOk : Option BundleTx → Bool) (txs : List BundleTx) :
    submitBundleLoop marshalOk submitOk txs
      = txs.map (fun tx =>
          if marshalOk tx then SubmitAttempt.snipe tx (submitOk (some tx))
          else SubmitAttempt.marshalFail tx) := by
  induction txs with
  | nil => rfl
  | cons tx rest ih =>
    simp only [submitBundleLoop, ih, List.map_cons]
    split_ifs <;> rfl

/-! Claim C4. -/

/-- C4: bundle submission processes the transactions in bundle order,
submits the liquidity-add transaction unconditionally and first (also when
there is no sniper transaction at all), and neither a marshalling failure
nor a submitTx failure at any position stops the later positions: the
attempt sequence is always the liquidity-add attempt followed by exactly one
attempt per sniper transaction in order, whatever the outcomes are. -/
theorem submitBundle_unconditional_and_contained (marshalOk : BundleTx → Bool)
    (submitOk : Option BundleTx → Bool) (transactions : List BundleTx) :
    submitBundle marshalOk submitOk transactions
      = SubmitAttempt.lpAdd (submitOk none) ::
          transactions.map (fun tx =>
            if marshalOk tx then SubmitAttempt.snipe tx (submitOk (some tx))
            else SubmitAttempt.marshalFail tx) ∧
    submitBundle marshalOk submitOk []
      = [SubmitAttempt.lpAdd (submitOk none)] := by
  constructor
  · simp [submitBundle, submitBundleLoop_eq_map]
  · rfl

/-! Claim C8. -/

/-- C8: the classifiers return no match whenever the destination address
differs from the configured contract (router for addLiquidityETH, factory
for createPair), including a nil destination, whatever the call data is; and
call data shorter than 4 bytes never matches either classifier. -/
theorem classifier_destination_specificity (cfg : Config) (tx : Tx) :
    (tx.data.length < 4 →
      isAddLiquidityTransaction cfg tx = false ∧
        isCreatePairTransaction cfg tx = false) ∧
    (tx.toAddr ≠ some cfg.uniswapV2Router →
      isAddLiquidityTransaction cfg tx = false) ∧
    (tx.toAddr ≠ some cfg.uniswapV2Factory →
      isCreatePairTransaction cfg tx = false) := by
  refine ⟨fun h => ?_, fun h => ?_, fun h => ?_⟩
  · constructor <;> simp [isAddLiquidityTransaction, isCreatePairTransaction, h]
  · unfold isAddLiquidityTransaction
    split_ifs <;> rfl
  · unfold isCreatePairTransaction
    split_ifs <;> rfl

/-- Witness for C8: the short-data case, the selector-match-with-wrong-
destination case and the nil-destination case at concrete transactions. -/
theorem classifier_destination_specificity_witness :
    (isAddLiquidityTransaction demoCfg txShortData = false ∧
      isCreatePairTransaction demoCfg txShortData = false) ∧
    isAddLiquidityTransaction demoCfg txWrongDest = false ∧
    isCreatePairTransaction demoCfg txNoDest = false :=
  ⟨(classifier_destination_specificity demoCfg txShortData).1 (by decide),
   (classifier_destination_specificity demoCfg txWrongDest).2.1 (by decide),
   (classifier_destination_specificity demoCfg txNoDest).2.2 (by decide)⟩

/-! Claim C10. -/

/-- C10: AddSnipeBid appends the bid at the end of the list stored under the
bid's token address and leaves every other token's list unchanged; the
operation is a total function (it cannot fail). -/
theorem AddSnipeBid_appends_and_frames (hexOf : Address → String)
    (hinj : Function.Injective hexOf) (ledger : BidLedger) (bid : RpcSnipeBid) :
    AddSnipeBid hexOf ledger bid (hexOf bid.tokenAddress)
        = ledger (hexOf bid.tokenAddress) ++ [bid] ∧
    ∀ t : Address, t ≠ bid.tokenAddress →
      AddSnipeBid hexOf ledger bid (hexOf t) = ledger (hexOf t) := by
  constructor
  · simp [AddSnipeBid]
  · intro t ht
    unfold AddSnipeBid
    rw [if_neg]
    intro hkey
    exact ht (hinj hkey)

/-- Witness for C10: inserting a concrete bid into the empty ledger appends
it under its token key and leaves a different token's key empty. -/
theorem AddSnipeBid_appends_and_frames_witness :
    (AddSnipeBid hexRepl emptyLedger sampleLedgerBid
        (hexRepl sampleLedgerBid.tokenAddress)
      = emptyLedger (hexRepl sampleLedgerBid.tokenAddress) ++ [sampleLedgerBid]) ∧
    AddSnipeBid hexRepl emptyLedger sampleLedgerBid (hexRepl 7)
      = emptyLedger (hexRepl 7) :=
  ⟨(AddSnipeBid_appends_and_frames hexRepl hexRepl_injective emptyLedger
      sampleLedgerBid).1,
   (AddSnipeBid_appends_and_frames hexRepl hexRepl_injective emptyLedger
      sampleLedgerBid).2 7 (by decide)⟩

/-! Claim C9. -/

/-- C9 (amended): the addLiquidityETH extractor rejects call data shorter
than 36 = 4 + 32 x 1 bytes (it decodes only the first parameter word, the
token, not all six), the createPair extractor rejects call data shorter than
68 = 4 + 32 x 2 bytes, and neither reads past its threshold: each extractor
gives the same answer on the call data truncated to its threshold, so no
byte beyond the checked prefix (in particular none out of bounds) is ever
read. -/
theorem extractor_thresholds_and_bounds (tx : Tx) :
    (extractTokenFromAddLiquidity tx
        = Except.error "insufficient data length" ↔ tx.data.length < 36) ∧
    (extractTokensFromCreatePair tx
        = Except.error "insufficient data length" ↔ tx.data.length < 68) ∧
    extractTokenFromAddLiquidity { tx with data := tx.data.take 36 }
      = extractTokenFromAddLiquidity tx ∧
    extractTokensFromCreatePair { tx with data := tx.data.take 68 }
      = extractTokensFromCreatePair tx := by
  obtain ⟨ty, toA, d, snd⟩ := tx
  refine ⟨?_, ?_, ?_, ?_⟩
  · unfold extractTokenFromAddLiquidity
    split_ifs with h <;> simp [h]
  · unfold extractTokensFromCreatePair
    split_ifs with h <;> simp [h]
  · by_cases h : d.length < 36
    · unfold extractTokenFromAddLiquidity
      dsimp only
      rw [List.take_of_length_le (le_of_lt h)]
    · have hlen : ¬ (List.take 36 d).length < 36 := by
        simp [List.length_take]
        omega
      have hb : (((List.take 36 d).drop 4).drop 12).take 20
          = ((d.drop 4).drop 12).take 20 := by
        rw [List.drop_drop, List.drop_drop]
        rw [show (36 : Nat) = 16 + 20 by rfl, List.drop_take]
        simp [List.take_take]
      unfold extractTokenFromAddLiquidity
      dsimp only
      rw [if_neg hlen, if_neg h, hb]
  · by_cases h : d.length < 68
    · unfold extractTokensFromCreatePair
      dsimp only
      rw [List.take_of_length_le (le_of_lt h)]
    · have hlen : ¬ (List.take 68 d).length < 68 := by
        simp [List.length_take]
        omega
      have hbA : (((List.take 68 d).drop 4).drop 12).take 20
          = ((d.drop 4).drop 12).take 20 := by
        rw [List.drop_drop, List.drop_drop]
        rw [show (68 : Nat) = 16 + 52 by rfl, List.drop_take]
        simp [List.take_take]
      have hbB : (((List.take 68 d).drop 4).drop 44).take 20
          = ((d.drop 4).drop 44).take 20 := by
        rw [List.drop_drop, List.drop_drop]
        rw [show (68 : Nat) = 48 + 20 by rfl, List.drop_take]
        simp [List.take_take]
      unfold extractTokensFromCreatePair
      dsimp only
      rw [if_neg hlen, if_neg h, hbA, hbB]

/-- Counterexample for C9 as stated: 36-byte addLiquidityETH call data is
shorter than 4 + 32 x 6 = 196 bytes, yet the extractor returns the token
instead of a decoding error. -/
theorem extractor_short_input_accepted :
    txLegacyMatched.data.length = 36 ∧ (36 : Nat) < 4 + 32 * 6 ∧
    extractTokenFromAddLiquidity txLegacyMatched = Except.ok 0xAA := by
  refine ⟨by decide, by decide, by rfl⟩

/-! Bundle-builder lemmas shared by the C1 and C3 theorems. -/

/-- The clamped fee computation is the max of the minimum and the ladder
value. -/
theorem apiMaxFeePerGas_eq_max (initial minMaxFee : Int) (i : Nat) :
    apiMaxFeePerGas initial minMaxFee i = max minMaxFee (initial - i) := by
  show (if initial - (i : Int) < minMaxFee then minMaxFee else initial - i)
      = max minMaxFee (initial - i)
  rw [max_def]
  split_ifs <;> omega

/-- On a successful build starting at loop index i, the fee caps are exactly
the ladder values at positions i, i+1, ..., one per bid. -/
theorem createBundleLoop_ok_shape (nonceOf : Address → Except String Nat)
    (initial minMaxFee : Int) :
    ∀ (bids : List SnipeBid) (i : Nat) (txs : List BundleTx),
      createBundleLoop nonceOf initial minMaxFee i bids = Except.ok txs →
      txs.map (fun t => t.gasFeeCap)
          = (List.range bids.length).map
              (fun j => apiMaxFeePerGas initial minMaxFee (i + j)) ∧
      txs.length = bids.length := by
  intro bids
  induction bids with
  | nil => intro i txs h; simp [createBundleLoop] at h; simp [h.symm]
  | cons bid rest ih =>
    intro i txs h
    unfold createBundleLoop at h
    cases hn : nonceOf bid.wallet with
    | error e => rw [hn] at h; exact absurd h (by simp)
    | ok nonce =>
      rw [hn] at h
      cases hr : createBundleLoop nonceOf initial minMaxFee (i + 1) rest with
      | error e => rw [hr] at h; exact absurd h (by simp)
      | ok txs0 =>
        rw [hr] at h
        obtain ⟨hmap, hlen⟩ := ih (i + 1) txs0 hr
        have htxs : txs = ⟨bid.wallet, nonce, maxPriorityFeePerGas,
            apiMaxFeePerGas initial minMaxFee i⟩ :: txs0 := by
          simpa using h.symm
        subst htxs
        constructor
        · simp [List.range_succ_eq_map, List.map_map, hmap]
          intro a _
          congr 1
          omega
        · simp [hlen]

/-- If some bid's nonce fetch fails, the whole loop returns an error. -/
theorem createBundleLoop_err_of_failure (nonceOf : Address → Except String Nat)
    (initial minMaxFee : Int) :
    ∀ (bids : List SnipeBid) (i : Nat),
      (∃ b ∈ bids, (nonceOf b.wallet).isOk = false) →
      (createBundleLoop nonceOf initial minMaxFee i bids).isOk = false := by
  intro bids
  induction bids with
  | nil => intro i h; simp at h
  | cons bid rest ih =>
    intro i h
    unfold createBundleLoop
    cases hn : nonceOf bid.wallet with
    | error e => rfl
    | ok nonce =>
      have hrest : ∃ b ∈ rest, (nonceOf b.wallet).isOk = false := by
        rcases h with ⟨b, hb, hfail⟩
        rcases List.mem_cons.1 hb with rfl | hbr
        · rw [hn] at hfail; simp [Except.isOk, Except.toBool] at hfail
        · exact ⟨b, hbr, hfail⟩
      have hfalse := ih (i + 1) hrest
      cases hr : createBundleLoop nonceOf initial minMaxFee (i + 1) rest with
      | error e => rfl
      | ok txs0 => rw [hr] at hfalse; simp [Except.isOk, Except.toBool] at hfalse

/-- If every bid's nonce fetch succeeds, the loop returns a transaction
list. -/
theorem createBundleLoop_ok_of_all_ok (nonceOf : Address → Except String Nat)
    (initial minMaxFee : Int) :
    ∀ (bids : List SnipeBid) (i : Nat),
      (∀ b ∈ bids, (nonceOf b.wallet).isOk = true) →
      ∃ txs, createBundleLoop nonceOf initial minMaxFee i bids
          = Except.ok txs := by
  intro bids
  induction bids with
  | nil => intro i _; exact ⟨[], rfl⟩
  | cons bid rest ih =>
    intro i h
    have hb := h bid (List.mem_cons_self bid rest)
    cases hn : nonceOf bid.wallet with
    | error e => rw [hn] at hb; simp [Except.isOk, Except.toBool] at hb
    | ok nonce =>
      obtain ⟨txs0, hr⟩ := ih (i + 1) (fun b hbr => h b (List.mem_cons_of_mem bid hbr))
      refine ⟨⟨bid.wallet, nonce, maxPriorityFeePerGas,
        apiMaxFeePerGas initial minMaxFee i⟩ :: txs0, ?_⟩
      simp [createBundleLoop, hn, hr]

/-! Claim C1. -/

/-- C1 (amended): in the api service's bundle construction the i-th bidder
transaction (1-based i) has fee cap max(minFee, fee_cap(0) - (i-1)*step),
i.e. the ladder starts at the initial cap itself for the first bidder; the
claimed consequences hold: fees are non-increasing along the bundle
(fee(i) <= fee(i-1) for i in 2..N) and every fee is at least minFee. The
bundle manager's helper GetBundleGasPrice computes exactly the claimed
formula max(minFee, base - position) with its own minimum of 1 gwei. -/
theorem bundle_fee_ladder (nonceOf : Address → Except String Nat)
    (initial minMaxFee : Int) (bids : List SnipeBid) (txs : List BundleTx)
    (h : createBundleTransactions nonceOf initial minMaxFee bids
        = Except.ok txs) :
    txs.map (fun t => t.gasFeeCap)
        = (List.range bids.length).map (fun j : Nat => max minMaxFee (initial - (j : Int))) ∧
    txs.Pairwise (fun a b => b.gasFeeCap ≤ a.gasFeeCap) ∧
    (∀ t ∈ txs, minMaxFee ≤ t.gasFeeCap) ∧
    (∀ (base : Int) (position : Nat),
      GetBundleGasPrice base position = max 1000000000 (base - position)) := by
  obtain ⟨hmap, hlen⟩ :=
    createBundleLoop_ok_shape nonceOf initial minMaxFee bids 0 txs h
  have hmap2 : txs.map (fun t => t.gasFeeCap)
      = (List.range bids.length).map (fun j : Nat => max minMaxFee (initial - (j : Int))) := by
    rw [hmap]
    apply List.map_congr_left
    intro j _
    rw [apiMaxFeePerGas_eq_max]
    norm_num
  refine ⟨hmap2, ?_, ?_, ?_⟩
  · have hp : (txs.map (fun t => t.gasFeeCap)).Pairwise (fun x y => y ≤ x) := by
      rw [hmap2, List.pairwise_map]
      refine List.Pairwise.imp ?_ (List.pairwise_lt_range _)
      intro a b hab
      exact max_le_max le_rfl (by omega)
    exact List.pairwise_map.mp hp
  · intro t ht
    have hmem : t.gasFeeCap ∈ txs.map (fun t => t.gasFeeCap) :=
      List.mem_map_of_mem _ ht
    rw [hmap2] at hmem
    obtain ⟨j, _, hje⟩ := List.mem_map.1 hmem
    exact hje ▸ le_max_left _ _
  · intro base position
    show (if base - (position : Int) < 1000000000 then (1000000000 : Int)
        else base - position) = max 1000000000 (base - position)
    rw [max_def]
    split_ifs <;> omega

/-- Witness for C1 at a concrete successful build of two bidder
transactions. -/
theorem bundle_fee_ladder_witness :
    ([⟨100, 5, 2000000, 10⟩, ⟨200, 5, 2000000, 9⟩] : List BundleTx).map
          (fun t => t.gasFeeCap)
        = (List.range ([cbBidA, cbBidB] : List SnipeBid).length).map
            (fun j : Nat => max (3 : Int) (10 - (j : Int))) ∧
    ([⟨100, 5, 2000000, 10⟩, ⟨200, 5, 2000000, 9⟩] : List BundleTx).Pairwise
        (fun a b => b.gasFeeCap ≤ a.gasFeeCap) ∧
    (∀ t ∈ ([⟨100, 5, 2000000, 10⟩, ⟨200, 5, 2000000, 9⟩] : List BundleTx),
      (3 : Int) ≤ t.gasFeeCap) ∧
    (∀ (base : Int) (position : Nat),
      GetBundleGasPrice base position = max 1000000000 (base - position)) :=
  bundle_fee_ladder nonceAllOk 10 3 [cbBidA, cbBidB]
    [⟨100, 5, 2000000, 10⟩, ⟨200, 5, 2000000, 9⟩] (by rfl)

/-- Counterexample for C1 as stated: with base fee 10 gwei, the first bidder
transaction's fee cap is the initial cap 10003000000 itself, not
max(minFee, fee_cap(0) - 1*step) = 10002999999 as the claimed formula with
i = 1 requires. -/
theorem fee_ladder_offset_counterexample :
    createBundleTransactions nonceAllOk (initialMaxFeePerGas 10000000000)
        (10000000000 + maxPriorityFeePerGas) [cbBidC]
      = Except.ok [⟨300, 5, 2000000, 10003000000⟩] ∧
    (10003000000 : Int)
      ≠ max (10000000000 + maxPriorityFeePerGas)
          (initialMaxFeePerGas 10000000000 - 1) := by
  constructor
  · rfl
  · decide

/-! Claim C3. -/

/-- C3 (amended): a nonce-fetch failure for any bidder makes the whole build
return an error, so the bundle contains no bidder transactions at all rather
than the other N-1; only when every bidder's nonce fetch succeeds does the
build return a bundle, and then it has exactly N bidder transactions. -/
theorem nonce_failure_aborts_build (nonceOf : Address → Except String Nat)
    (initial minMaxFee : Int) (bids : List SnipeBid) :
    ((∃ b ∈ bids, (nonceOf b.wallet).isOk = false) →
      (createBundleTransactions nonceOf initial minMaxFee bids).isOk = false) ∧
    ((∀ b ∈ bids, (nonceOf b.wallet).isOk = true) →
      ∃ txs, createBundleTransactions nonceOf initial minMaxFee bids
          = Except.ok txs ∧ txs.length = bids.length) := by
  constructor
  · intro h
    exact createBundleLoop_err_of_failure nonceOf initial minMaxFee bids 0 h
  · intro h
    obtain ⟨txs, htxs⟩ :=
      createBundleLoop_ok_of_all_ok nonceOf initial minMaxFee bids 0 h
    exact ⟨txs, htxs,
      (createBundleLoop_ok_shape nonceOf initial minMaxFee bids 0 txs htxs).2⟩

/-- Witness for C3: a build of three bids where the second bidder's nonce
fetch fails returns an error, and the same build with an all-successful
oracle returns three transactions. -/
theorem nonce_failure_aborts_build_witness :
    (createBundleTransactions nonceFailB 10 3 [cbBidA, cbBidB, cbBidC]).isOk
        = false ∧
    ∃ txs, createBundleTransactions nonceAllOk 10 3 [cbBidA, cbBidB, cbBidC]
        = Except.ok txs ∧
      txs.length = ([cbBidA, cbBidB, cbBidC] : List SnipeBid).length :=
  ⟨(nonce_failure_aborts_build nonceFailB 10 3 [cbBidA, cbBidB, cbBidC]).1
      ⟨cbBidB, by decide, by decide⟩,
   (nonce_failure_aborts_build nonceAllOk 10 3 [cbBidA, cbBidB, cbBidC]).2
      (by decide)⟩

/-- Counterexample for C3 as stated: with three bidders whose nonce fetches
succeed, fail and succeed respectively, the build returns no bundle at all
(an error), not a bundle of the other two transactions. -/
theorem nonce_failure_counterexample :
    (nonceFailB cbBidA.wallet).isOk = true ∧
    (nonceFailB cbBidB.wallet).isOk = false ∧
    (nonceFailB cbBidC.wallet).isOk = true ∧
    (createBundleTransactions nonceFailB 10 3 [cbBidA, cbBidB, cbBidC]).isOk
      = false := by
  refine ⟨by rfl, by rfl, by rfl, by rfl⟩

/-! Claim C2. -/

/-- C2: the resolver sorts with Go sort.Slice, whose contract fixes only the
bribe ordering, not the relative order of equal-bribe bids: on the two-bid
input [tieBidA, tieBidB] with equal bribes, the swapped output
[tieBidB, tieBidA] also satisfies the sort's contract, so preservation of
arrival order for equal bribes is not guaranteed by the code (sort.Slice is
documented as not stable; sort.SliceStable is not used). -/
theorem unstable_sort_breaks_tie_order :
    tieBidA.bribeAmount = tieBidB.bribeAmount ∧
    IsSortSliceResult [tieBidA, tieBidB] [tieBidB, tieBidA] ∧
    [tieBidB, tieBidA] ≠ [tieBidA, tieBidB] := by
  refine ⟨rfl, ⟨List.Perm.swap tieBidB tieBidA [], by decide⟩, by decide⟩

/-! Claim C5. -/

/-- C5: on a classified liquidity-add transaction, the internal rpc service
handler never reaches the forward step (it returns before the unreachable
forwardToBase call); the backend rpc service handler does forward after a
matched legacy transaction, but on a matched dynamic-fee transaction it
panics inside sender recovery (types.LatestSigner(nil)) before the forward
step, so the forward is not reached there either. -/
theorem matched_tx_not_always_forwarded :
    isAddLiquidityTransaction demoCfg txLegacyMatched = true ∧
    internalHandleSendRawTx demoCfg txLegacyMatched = ⟨false, false, false⟩ ∧
    backendHandleSendRawTx demoCfg (Except.ok 8453) txLegacyMatched
      = ⟨true, true, false⟩ ∧
    isAddLiquidityTransaction demoCfg txDynamicMatched = true ∧
    backendHandleSendRawTx demoCfg (Except.ok 8453) txDynamicMatched
      = ⟨false, false, true⟩ := by
  refine ⟨by decide, by decide, by decide, by decide, by decide⟩

/-! Claim C6. -/

/-- Folding the status updates over a list of drained snipes marks exactly
the rows whose id occurs among them as submitted. -/
theorem markSnipesSubmitted_eq_map (snipes : List Snipe) :
    ∀ table : List Snipe,
      markSnipesSubmitted table snipes
        = table.map (fun s =>
            if s.id ∈ snipes.map (fun x => x.id)
            then { s with status := "submitted" } else s) := by
  induction snipes with
  | nil =>
    intro table
    simp [markSnipesSubmitted]
  | cons x xs ih =>
    intro table
    show markSnipesSubmitted (UpdateSnipeStatus table x.id "submitted") xs = _
    rw [ih]
    unfold UpdateSnipeStatus
    rw [List.map_map]
    apply List.map_congr_left
    intro s _
    by_cases h1 : s.id = x.id
    · simp [Function.comp, h1]
    · simp [Function.comp, h1]

/-- C6 (amended): the drain is a non-destructive read, so a second immediate
drain returns the same set; the drained set only becomes empty after the
post-submission loop has marked every drained snipe as submitted, at which
point a further drain returns the empty list. -/
theorem drain_empty_only_after_status_update (table : List Snipe) (t : String) :
    GetSnipesByToken (markSnipesSubmitted table (GetSnipesByToken table t)) t
      = [] := by
  rw [markSnipesSubmitted_eq_map]
  rw [show GetSnipesByToken (table.map (fun s =>
      if s.id ∈ (GetSnipesByToken table t).map (fun x => x.id)
      then { s with status := "submitted" } else s)) t
    = (table.map (fun s =>
        if s.id ∈ (GetSnipesByToken table t).map (fun x => x.id)
        then { s with status := "submitted" } else s)).filter
        (fun s => s.tokenAddress == t && s.status == "pending") from rfl]
  rw [List.filter_eq_nil_iff]
  intro a ha
  obtain ⟨s, hs, rfl⟩ := List.mem_map.1 ha
  by_cases hmem : s.id ∈ (GetSnipesByToken table t).map (fun x => x.id)
  · simp [hmem]
  · simp only [hmem, if_neg, if_false]
    intro hp
    exact hmem (List.mem_map.2 ⟨s, List.mem_filter.2 ⟨hs, hp⟩, rfl⟩)

/-- Counterexample for C6 as stated: a drain with one pending snipe returns
it, and since the drain does not modify the table, the second immediate
drain is the same read on the same table and returns the same nonempty set,
not the empty set. -/
theorem drain_not_destructive_counterexample :
    GetSnipesByToken [pendSnipe] "T" = [pendSnipe] ∧
    GetSnipesByToken [pendSnipe] "T" ≠ [] := by
  refine ⟨by decide, by decide⟩

/-! Claim C7. -/

/-- C7: sender recovery does not handle the fee-market format under its own
scheme. The rpc-service path branches on the format, but its non-legacy
branch calls types.LatestSigner(nil) and panics on the nil chain
configuration instead of recovering; the sniper-contract path hardcodes the
EIP-155 signer for every format, so a dynamic-fee transaction yields
ErrTxTypeNotSupported. Only the legacy format is recovered, under EIP-155. -/
theorem fee_market_recovery_broken :
    extractSenderFromTransaction (Except.ok 8453) txDynamicMatched
        = SenderOutcome.panicNilConfig ∧
    GetCreatorFromLPAddTx 8453 txDynamicMatched
        = Except.error "transaction type not supported" ∧
    extractSenderFromTransaction (Except.ok 8453) txLegacyMatched
        = SenderOutcome.ok (Signer.eip155 8453) txLegacyMatched.sender := by
  refine ⟨by rfl, by rfl, by rfl⟩

end SniperBot
